import Mathlib

/-!
Verification of the dust-dds middleware core against its specification.
Shallow embedding of the Rust sources: rtps_pim (stateless reader
behavior), rtps_udp_psm (SequenceNumber, SequenceNumberSet, submessage
mappings) and the dds domain participant actor. Definitions come
first, then the theorems about them.
-/

namespace DustDds

/-! ## Basic RTPS structure types (rtps_pim::structure::types) -/

/-- 12-byte GUID prefix (modelled as a list of byte values). -/
structure GuidPrefix where
  bytes : List Nat
  deriving DecidableEq

/-- 4-byte entity id: 3-byte entity key plus 1-byte entity kind. -/
structure EntityId where
  entity_key : List Nat
  entity_kind : Nat
  deriving DecidableEq

/-- 16-byte GUID: prefix plus entity id. -/
structure Guid where
  guidPfx : GuidPrefix
  entityId : EntityId
  deriving DecidableEq

/-- Entity kind byte of a user-defined writer group (rtps types). -/
def USER_DEFINED_WRITER_GROUP : Nat := 0x08

/-- Kind of a cache change (rtps_pim::structure::types::ChangeKind). -/
inductive ChangeKind where
  | Alive
  | NotAliveDisposed
  | NotAliveUnregistered
  deriving DecidableEq

/-! ## Submessage elements (rtps_pim::messages::submessage_elements),
modelled with the concrete field layout used by the stateless reader
behavior and its tests. Sequence numbers at the pim layer are plain
signed 64-bit values, modelled as Int. -/

/-- One inline QoS parameter: id, declared length, raw value bytes. -/
structure Parameter where
  parameter_id : Nat
  length : Int
  value : List Nat
  deriving DecidableEq

structure EntityIdSubmessageElement where
  value : EntityId
  deriving DecidableEq

structure SequenceNumberSubmessageElement where
  value : Int
  deriving DecidableEq

structure ParameterListSubmessageElement where
  parameter : List Parameter
  deriving DecidableEq

structure SerializedDataSubmessageElement where
  value : List Nat
  deriving DecidableEq

/-- DATA submessage (rtps_pim::messages::submessages::DataSubmessage). -/
structure DataSubmessage where
  endianness_flag : Bool
  inline_qos_flag : Bool
  data_flag : Bool
  key_flag : Bool
  non_standard_payload_flag : Bool
  reader_id : EntityIdSubmessageElement
  writer_id : EntityIdSubmessageElement
  writer_sn : SequenceNumberSubmessageElement
  inline_qos : ParameterListSubmessageElement
  serialized_payload : SerializedDataSubmessageElement
  deriving DecidableEq

/-- One cache change, with the fields passed to
RtpsCacheChangeConstructor::new in the source. The instance handle at
this layer is a plain number. -/
structure CacheChange where
  kind : ChangeKind
  writer_guid : Guid
  instance_handle : Int
  sequence_number : Int
  data_value : List Nat
  inline_qos : List Parameter
  deriving DecidableEq

/-! ## Best-effort stateless reader behavior
(rtps_pim::behavior::stateless_reader_behavior).

The reader history cache is modelled as the list of its changes;
RtpsHistoryCacheOperations::add_change appends the new change. A
panicking execution (the todo!() arm of the kind match) is modelled as
the result none; some cache is a normal return with the updated cache. -/

def BestEffortStatelessReaderBehavior.receive_data
    (reader_cache : List CacheChange) (sourceGuidPfx : GuidPrefix)
    (data : DataSubmessage) : Option (List CacheChange) :=
  let kindOpt : Option ChangeKind :=
    match data.data_flag, data.key_flag with
    | true, false => some ChangeKind.Alive
    | false, true => some ChangeKind.NotAliveDisposed
    | _, _ => none
  kindOpt.map fun kind =>
    let writer_guid : Guid := ⟨sourceGuidPfx, data.writer_id.value⟩
    let instance_handle : Int := 0
    let sequence_number := data.writer_sn.value
    let data_value := data.serialized_payload.value
    let inline_qos := data.inline_qos.parameter
    let a_change : CacheChange :=
      ⟨kind, writer_guid, instance_handle, sequence_number, data_value, inline_qos⟩
    reader_cache ++ [a_change]

/-- A concrete DATA submessage with a given pair of flags, used as the
explicit input of claim theorems. -/
def mkDataSubmessage (dataFlag keyFlag : Bool) : DataSubmessage :=
  { endianness_flag := true
    inline_qos_flag := true
    data_flag := dataFlag
    key_flag := keyFlag
    non_standard_payload_flag := false
    reader_id := ⟨⟨[0, 0, 0], 0⟩⟩
    writer_id := ⟨⟨[0, 0, 0], 0⟩⟩
    writer_sn := ⟨1⟩
    inline_qos := ⟨[]⟩
    serialized_payload := ⟨[1, 2, 3, 4]⟩ }

/-! ## DDS infrastructure (dds infrastructure::error, instance) -/

/-- The DDS error taxonomy (infrastructure::error::DdsError). -/
inductive DdsError where
  | Error
  | NotEnabled
  | ImmutablePolicy
  | InconsistentPolicy
  | PreconditionNotMet (msg : String)
  | IllegalOperation
  | AlreadyDeleted
  | Timeout
  | NoData
  | BadParameter
  | Unsupported
  | OutOfResources
  deriving DecidableEq

/-- 16-byte instance handle (infrastructure::instance::InstanceHandle). -/
structure InstanceHandle where
  value : List Nat
  deriving DecidableEq

/-- The 16 bytes of a GUID: prefix, then entity key, then entity kind. -/
def Guid.toBytes (g : Guid) : List Nat :=
  g.guidPfx.bytes ++ g.entityId.entity_key ++ [g.entityId.entity_kind]

/-! ## Association-list model of std HashMap keyed by instance handle.
Insert replaces any binding of the same key; remove drops it; get finds
the binding; keys lists the bound keys. -/

def assocGet {α β : Type} [DecidableEq α] (m : List (α × β)) (k : α) : Option β :=
  (m.find? fun p => decide (p.1 = k)).map Prod.snd

def assocInsert {α β : Type} [DecidableEq α] (m : List (α × β)) (k : α) (v : β) :
    List (α × β) :=
  (k, v) :: m.filter fun p => !decide (p.1 = k)

def assocRemove {α β : Type} [DecidableEq α] (m : List (α × β)) (k : α) :
    List (α × β) :=
  m.filter fun p => !decide (p.1 = k)

def assocKeys {α β : Type} (m : List (α × β)) : List α :=
  m.map Prod.fst

/-! ## Discovered data (data_representation_builtin_endpoints).
Only the fields consumed by the participant actor operations under
verification are modelled; the remaining proxy fields (locators,
available_builtin_endpoints, ...) are consumed by the SEDP matching
calls, which act on the builtin publisher and subscriber actors. -/

structure BuiltInTopicKey where
  value : List Nat
  deriving DecidableEq

structure ParticipantBuiltinTopicData where
  key : BuiltInTopicKey
  user_data : List Nat
  deriving DecidableEq

structure ParticipantProxy where
  domain_id : Option Int
  domain_tag : String
  deriving DecidableEq

structure SpdpDiscoveredParticipantData where
  dds_participant_data : ParticipantBuiltinTopicData
  participant_proxy : ParticipantProxy
  deriving DecidableEq

structure TopicBuiltinTopicData where
  key : BuiltInTopicKey
  name : String
  type_name : String
  deriving DecidableEq

/-- Publisher actor state: the claims only inspect its writer list, so
the writers are identified by their GUIDs. -/
structure PublisherActor where
  data_writer_list : List Guid
  deriving DecidableEq

/-- Domain participant actor state (the fields read or written by the
operations under verification; the remaining fields of the Rust struct
hold QoS defaults, listener and transport handles and builtin actors). -/
structure DomainParticipantActor where
  guidPfx : GuidPrefix
  domain_id : Int
  domain_tag : String
  user_defined_publisher_list : List (InstanceHandle × PublisherActor)
  user_defined_publisher_counter : Nat
  discovered_participant_list : List (InstanceHandle × SpdpDiscoveredParticipantData)
  discovered_topic_list : List (InstanceHandle × TopicBuiltinTopicData)
  ignored_participants : List InstanceHandle
  deriving DecidableEq

/-! ## Participant actor operations (actors::domain_participant_actor) -/

/-- delete_user_defined_publisher: result paired with the state after
the call (the Rust method mutates self only on the success path). -/
def DomainParticipantActor.delete_user_defined_publisher
    (s : DomainParticipantActor) (handle : InstanceHandle) :
    Except DdsError Unit × DomainParticipantActor :=
  match assocGet s.user_defined_publisher_list handle with
  | some p =>
      if !p.data_writer_list.isEmpty then
        (Except.error (DdsError.PreconditionNotMet
          ("Publisher still contains data writers")), s)
      else
        (Except.ok (),
          { s with user_defined_publisher_list :=
              assocRemove s.user_defined_publisher_list handle })
  | none =>
      (Except.error (DdsError.PreconditionNotMet
        ("Publisher can only be deleted from its parent participant")), s)

def DomainParticipantActor.get_discovered_participants
    (s : DomainParticipantActor) : List InstanceHandle :=
  assocKeys s.discovered_participant_list

/-- get_discovered_participant_data: a read-only operation, returned
together with the (unchanged) state. -/
def DomainParticipantActor.get_discovered_participant_data
    (s : DomainParticipantActor) (participant_handle : InstanceHandle) :
    Except DdsError ParticipantBuiltinTopicData × DomainParticipantActor :=
  match assocGet s.discovered_participant_list participant_handle with
  | some d => (Except.ok d.dds_participant_data, s)
  | none =>
      (Except.error (DdsError.PreconditionNotMet
        ("Participant with this instance handle not discovered")), s)

def DomainParticipantActor.get_discovered_topic_data
    (s : DomainParticipantActor) (topic_handle : InstanceHandle) :
    Except DdsError TopicBuiltinTopicData × DomainParticipantActor :=
  match assocGet s.discovered_topic_list topic_handle with
  | some d => (Except.ok d, s)
  | none =>
      (Except.error (DdsError.PreconditionNotMet
        ("Topic with this handle not discovered")), s)

/-- process_discovered_participant_data. The add_matched calls of the
source act on the builtin publisher and subscriber actors (SEDP proxy
matching) and do not touch the participant state modelled here. As in
the source, a missing domain id in the sample defaults to the local
domain id (Table 9.19 of the RTPS specification). -/
def DomainParticipantActor.process_discovered_participant_data
    (s : DomainParticipantActor) (d : SpdpDiscoveredParticipantData) :
    DomainParticipantActor :=
  let is_domain_id_matching :=
    d.participant_proxy.domain_id.getD s.domain_id = s.domain_id
  let is_domain_tag_matching := d.participant_proxy.domain_tag = s.domain_tag
  let discovered_participant_handle : InstanceHandle :=
    ⟨d.dds_participant_data.key.value⟩
  let is_participant_ignored :=
    discovered_participant_handle ∈ s.ignored_participants
  if is_domain_id_matching ∧ is_domain_tag_matching ∧ ¬is_participant_ignored then
    { s with discovered_participant_list :=
        assocInsert s.discovered_participant_list discovered_participant_handle d }
  else
    s

/-- create_unique_publisher_id: returns the current u8 counter and
post-increments it; u8 wrap-around is the explicit modulus 256. -/
def DomainParticipantActor.create_unique_publisher_id
    (s : DomainParticipantActor) : Nat × DomainParticipantActor :=
  let counter := s.user_defined_publisher_counter
  (counter,
    { s with user_defined_publisher_counter :=
        (s.user_defined_publisher_counter + 1) % 256 })

/-- create_user_defined_publisher: returns the GUID of the new
publisher (whence its instance handle) and the updated state. The QoS,
listener and runtime plumbing of the source does not affect the
identity of the created entity. -/
def DomainParticipantActor.create_user_defined_publisher
    (s : DomainParticipantActor) : Guid × DomainParticipantActor :=
  let r := s.create_unique_publisher_id
  let publisher_counter := r.1
  let s1 := r.2
  let entity_id : EntityId := ⟨[publisher_counter, 0, 0], USER_DEFINED_WRITER_GROUP⟩
  let guid : Guid := ⟨s1.guidPfx, entity_id⟩
  (guid,
    { s1 with user_defined_publisher_list :=
        assocInsert s1.user_defined_publisher_list ⟨guid.toBytes⟩ ⟨[]⟩ })

/-- The instance handle under which a discovered participant is keyed:
built from the participant key of the sample. -/
def spdpHandle (d : SpdpDiscoveredParticipantData) : InstanceHandle :=
  ⟨d.dds_participant_data.key.value⟩

/-- The discovery acceptance condition of
process_discovered_participant_data: the domain id of the sample is
absent or equal to the local one, the domain tag matches, and the
participant handle is not ignored. -/
def discoveryMatch (s : DomainParticipantActor)
    (d : SpdpDiscoveredParticipantData) : Prop :=
  d.participant_proxy.domain_id.getD s.domain_id = s.domain_id ∧
  d.participant_proxy.domain_tag = s.domain_tag ∧
  spdpHandle d ∉ s.ignored_participants

instance (s : DomainParticipantActor) (d : SpdpDiscoveredParticipantData) :
    Decidable (discoveryMatch s d) := by
  unfold discoveryMatch
  exact inferInstance

/-- State of the participant that has created no user entities yet. -/
def initialParticipant : DomainParticipantActor :=
  { guidPfx := ⟨[1, 2, 3, 4, 5, 6, 7, 8, 9, 10, 11, 12]⟩
    domain_id := 0
    domain_tag := ""
    user_defined_publisher_list := []
    user_defined_publisher_counter := 0
    discovered_participant_list := []
    discovered_topic_list := []
    ignored_participants := [] }

/-- Iterated publisher creation: the state after n successive calls of
create_user_defined_publisher. -/
def createMany : Nat → DomainParticipantActor → DomainParticipantActor
  | 0, s => s
  | n + 1, s =>
      (DomainParticipantActor.create_user_defined_publisher (createMany n s)).2

/-- The GUID that the next create_user_defined_publisher call returns. -/
def guidOfNext (s : DomainParticipantActor) : Guid :=
  (DomainParticipantActor.create_user_defined_publisher s).1

/-! ## Concrete inputs used by claim theorems -/

/-- An SPDP sample that carries no domain id (permitted by the wire
format; Table 9.19 defaults it to the local domain id). -/
def sampleNoDomainId : SpdpDiscoveredParticipantData :=
  ⟨⟨⟨[9, 0, 0, 0, 0, 0, 0, 0, 0, 0, 0, 0, 0, 0, 0, 1]⟩, []⟩, ⟨none, ""⟩⟩

/-- An SPDP sample whose domain id and tag match initialParticipant. -/
def sampleMatching : SpdpDiscoveredParticipantData :=
  ⟨⟨⟨[8, 0, 0, 0, 0, 0, 0, 0, 0, 0, 0, 0, 0, 0, 0, 1]⟩, []⟩, ⟨some 0, ""⟩⟩

/-- A participant that has already discovered the sender of
sampleNoDomainId and now ignores it. -/
def ignoringParticipant : DomainParticipantActor :=
  { initialParticipant with
      discovered_participant_list := [(spdpHandle sampleNoDomainId, sampleNoDomainId)]
      ignored_participants := [spdpHandle sampleNoDomainId] }

/-- A participant owning exactly one publisher, which has no writers. -/
def onePublisherState : DomainParticipantActor :=
  { initialParticipant with
      user_defined_publisher_list := [(⟨[3]⟩, ⟨[]⟩)] }

/-! ## INFO_TS submessage mapping
(rtps_udp_psm::mapping_rtps_messages::submessages::info_timestamp).

The submessage layout follows the RTPS specification: endianness flag,
invalidate flag, and the timestamp (seconds, fraction). Serialization
produces a byte sequence; deserialization consumes one. Both mappings
in the source are todo!(), i.e. they panic unconditionally; a panic is
modelled as the result none. -/

structure Time where
  seconds : Nat
  fraction : Nat
  deriving DecidableEq

structure InfoTimestampSubmessage where
  endianness_flag : Bool
  invalidate_flag : Bool
  timestamp : Time
  deriving DecidableEq

/-- MappingWrite for InfoTimestampSubmessageWrite: the body is todo!()
and panics before writing any byte. -/
def InfoTimestampSubmessage.mapping_write
    (_x : InfoTimestampSubmessage) : Option (List Nat) :=
  none

/-- MappingRead for InfoTimestampSubmessageRead: the body is todo!()
and panics before reading any byte. -/
def InfoTimestampSubmessage.mapping_read
    (_buf : List Nat) : Option InfoTimestampSubmessage :=
  none

/-! ## wait_for_historical_data (dds_async::data_reader).

The source wraps a polling loop in tokio::time::timeout(max_wait):
each iteration asks the reader actor whether historical data has been
received (a read-only request) and returns Ok on the first true
answer; when max_wait elapses first the error is mapped to
DdsError::Timeout. Time is abstracted by the number of polls the
deadline allows (budget); trace i is the value the reader actor
reports at the i-th poll. The loop itself never modifies the reader. -/

def waitLoop (trace : Nat → Bool) (i : Nat) : Nat → Except DdsError Unit
  | 0 => Except.error DdsError.Timeout
  | budget + 1 =>
      if trace i then Except.ok () else waitLoop trace (i + 1) budget

def DataReaderAsync.wait_for_historical_data (trace : Nat → Bool)
    (budget : Nat) : Except DdsError Unit :=
  waitLoop trace 0 budget

/-! ## SequenceNumber of the UDP platform-specific mapping
(rtps_udp_psm::lib). The wire type splits a signed 64-bit value into
high: i32 and low: u32. Machine integers are modelled as Int and Nat
with the truncations written out. -/

/-- Truncation to a signed 32-bit value (the Rust "as i32" cast). -/
def i32trunc (x : Int) : Int := (x + 2 ^ 31) % 2 ^ 32 - 2 ^ 31

/-- Truncation to an unsigned 32-bit value (the Rust "as u32" cast). -/
def u32trunc (x : Int) : Nat := (x % 2 ^ 32).toNat

structure SequenceNumber where
  high : Int
  low : Nat
  deriving DecidableEq

/-- The machine-representation invariant enforced by the Rust field
types: high is an i32, low is a u32. -/
def SequenceNumber.isRepr (s : SequenceNumber) : Prop :=
  -2 ^ 31 ≤ s.high ∧ s.high < 2 ^ 31 ∧ s.low < 2 ^ 32

instance (s : SequenceNumber) : Decidable s.isRepr := by
  unfold SequenceNumber.isRepr
  exact inferInstance

/-- Into<i64> for SequenceNumber: ((high as i64) << 32) + low as i64.
For an i32 high and a u32 low neither the shift nor the addition
overflows an i64, so the value is exact. -/
def SequenceNumber.toI64 (s : SequenceNumber) : Int :=
  s.high * 2 ^ 32 + s.low

/-- From<i64> for SequenceNumber: high = (value >> 32) as i32 (an
arithmetic shift, i.e. floor division), low = value as u32. -/
def SequenceNumber.fromI64 (value : Int) : SequenceNumber :=
  { high := i32trunc (Int.fdiv value (2 ^ 32))
    low := u32trunc value }

/-- Ord for SequenceNumber: the comparison of the i64 values. -/
def SequenceNumber.cmp (a b : SequenceNumber) : Ordering :=
  compare a.toI64 b.toI64

/-! ## SequenceNumberSet (rtps_udp_psm::lib): a base sequence number
and an 8-word bitmap of 32-bit entries (the i32 entries are modelled
as their 32-bit patterns). -/

structure SequenceNumberSet where
  base : SequenceNumber
  bitmap : List Nat
  deriving DecidableEq

/-- One step of FromIterator: bitmap[offset / 32] |= 1 << (offset -
(offset / 32) * 32). -/
def setBitmapBit (bitmap : List Nat) (off : Nat) : List Nat :=
  let array_index := off / 32
  let bit_position := off - array_index * 32
  bitmap.set array_index (bitmap.getD array_index 0 ||| (1 <<< bit_position))

/-- The while-let loop of FromIterator over the elements after the
base. The offset is the exact difference of the i64 values; when it
falls outside 0..=255 the Rust code panics (negative shift amount,
array index out of bounds, or i64 overflow of the subtraction),
modelled as none. -/
def fromIterAux (base : SequenceNumber) :
    List SequenceNumber → List Nat → Option (List Nat)
  | [], bitmap => some bitmap
  | value :: rest, bitmap =>
      let offset : Int := value.toI64 - base.toI64
      if 0 ≤ offset ∧ offset ≤ 255 then
        fromIterAux base rest (setBitmapBit bitmap offset.toNat)
      else
        none

/-- FromIterator<SequenceNumber> for SequenceNumberSet: the first
element becomes the base and its bit (bit 0) is always set; every
further element sets the bit at its offset from the base. -/
def SequenceNumberSet.from_iter :
    List SequenceNumber → Option SequenceNumberSet
  | [] => some ⟨SequenceNumber.fromI64 0, [0, 0, 0, 0, 0, 0, 0, 0]⟩
  | base :: rest =>
      (fromIterAux base rest [1, 0, 0, 0, 0, 0, 0, 0]).map fun bitmap =>
        ⟨base, bitmap⟩

/-- The elements produced by SequenceNumberSetIterator::next, in
iteration order: indices 0..256 whose bitmap bit is set, each yielding
base + array_index * 32 + bit_position. -/
def SequenceNumberSet.toList (s : SequenceNumberSet) : List SequenceNumber :=
  (List.range 256).filterMap fun index =>
    let array_index := index / 32
    let bit_position := index - array_index * 32
    if s.bitmap.getD array_index 0 &&& (1 <<< bit_position) == 1 <<< bit_position then
      some (SequenceNumber.fromI64
        (s.base.toI64 + (array_index : Int) * 32 + (bit_position : Int)))
    else
      none

/-- Whether bit i (0 ≤ i < 256) of the 8-word bitmap is set. -/
def bmTest (bitmap : List Nat) (i : Nat) : Bool :=
  (bitmap.getD (i / 32) 0).testBit (i % 32)

end DustDds

namespace DustDds

/-! ## Association-list lemmas -/

theorem assocGet_eq_none_of_not_mem {α β : Type} [DecidableEq α]
    {m : List (α × β)} {k : α} (h : k ∉ assocKeys m) : assocGet m k = none := by
  have hall : ∀ p ∈ m, ¬ (decide (p.1 = k) = true) := by
    intro p hp hdec
    exact h (by
      have : p.1 = k := of_decide_eq_true hdec
      simpa [assocKeys, this] using List.mem_map_of_mem Prod.fst hp)
  simp [assocGet, List.find?_eq_none.mpr hall]

theorem assocGet_remove_self {α β : Type} [DecidableEq α]
    (m : List (α × β)) (k : α) : assocGet (assocRemove m k) k = none := by
  have hall : ∀ p ∈ assocRemove m k, ¬ (decide (p.1 = k) = true) := by
    intro p hp
    have := (List.mem_filter.mp hp).2
    simpa using this
  simp [assocGet, List.find?_eq_none.mpr hall]

theorem assocGet_remove_ne {α β : Type} [DecidableEq α]
    (m : List (α × β)) (k k' : α) (h : k' ≠ k) :
    assocGet (assocRemove m k) k' = assocGet m k' := by
  induction m with
  | nil => rfl
  | cons p m ih =>
    simp only [assocRemove, List.filter_cons] at ih ⊢
    by_cases hp : p.1 = k
    · have hkk' : ¬ k = k' := fun hh => h hh.symm
      simp [assocGet, List.find?_cons, hp, hkk', h] at ih ⊢
      exact ih
    · by_cases hk' : p.1 = k'
      · simp [assocGet, List.find?_cons, hp, hk', h]
      · simp [assocGet, List.find?_cons, hp, hk', h] at ih ⊢
        exact ih

theorem mem_assocKeys_insert {α β : Type} [DecidableEq α]
    (m : List (α × β)) (k0 k : α) (v : β) :
    k ∈ assocKeys (assocInsert m k0 v) ↔ k = k0 ∨ k ∈ assocKeys m := by
  by_cases hk : k = k0
  · simp [assocKeys, assocInsert, hk]
  · simp only [assocKeys, assocInsert, List.map_cons, List.mem_cons, hk, false_or]
    constructor
    · intro hmem
      obtain ⟨p, hp, rfl⟩ := List.mem_map.mp hmem
      exact List.mem_map_of_mem Prod.fst (List.mem_filter.mp hp).1
    · intro hmem
      obtain ⟨p, hp, rfl⟩ := List.mem_map.mp hmem
      have hpred : (!decide (p.1 = k0)) = true := by simpa using hk
      exact List.mem_map_of_mem Prod.fst (List.mem_filter.mpr ⟨hp, hpred⟩)

/-! ## Supporting lemmas for the participant operations -/

theorem process_eq_ite (s : DomainParticipantActor)
    (d : SpdpDiscoveredParticipantData) :
    s.process_discovered_participant_data d =
      if discoveryMatch s d then
        { s with discovered_participant_list :=
            assocInsert s.discovered_participant_list (spdpHandle d) d }
      else s := by
  unfold DomainParticipantActor.process_discovered_participant_data discoveryMatch spdpHandle
  rfl

theorem createMany_counter (s : DomainParticipantActor)
    (hs : s.user_defined_publisher_counter < 256) (n : Nat) :
    (createMany n s).user_defined_publisher_counter =
      (s.user_defined_publisher_counter + n) % 256 := by
  induction n with
  | zero =>
    simp only [createMany, Nat.add_zero]
    omega
  | succ n ih =>
    simp only [createMany, DomainParticipantActor.create_user_defined_publisher,
      DomainParticipantActor.create_unique_publisher_id]
    simp only [ih]
    omega

theorem createMany_guidPfx (s : DomainParticipantActor) (n : Nat) :
    (createMany n s).guidPfx = s.guidPfx := by
  induction n with
  | zero => rfl
  | succ n ih =>
    simpa only [createMany, DomainParticipantActor.create_user_defined_publisher,
      DomainParticipantActor.create_unique_publisher_id] using ih

theorem guidOfNext_eq (s : DomainParticipantActor) :
    guidOfNext s =
      ⟨s.guidPfx, ⟨[s.user_defined_publisher_counter, 0, 0], USER_DEFINED_WRITER_GROUP⟩⟩ :=
  rfl

/-! ## Supporting lemmas for the wait loop -/

theorem waitLoop_ok (trace : Nat → Bool) (budget : Nat) :
    ∀ start : Nat, (∃ k, k < budget ∧ trace (start + k) = true) →
      waitLoop trace start budget = Except.ok () := by
  induction budget with
  | zero =>
    intro start h
    obtain ⟨k, hk, _⟩ := h
    omega
  | succ n ih =>
    intro start h
    by_cases h0 : trace start
    · simp [waitLoop, h0]
    · obtain ⟨k, hk, htk⟩ := h
      cases k with
      | zero =>
        rw [Nat.add_zero] at htk
        exact absurd htk (by simpa using h0)
      | succ k =>
        simp only [waitLoop, h0, if_false, Bool.false_eq_true, if_neg]
        exact ih (start + 1)
          ⟨k, by omega, by rw [show start + 1 + k = start + (k + 1) by omega]; exact htk⟩

theorem waitLoop_timeout (trace : Nat → Bool) (budget : Nat) :
    ∀ start : Nat, (∀ k, k < budget → trace (start + k) = false) →
      waitLoop trace start budget = Except.error DdsError.Timeout := by
  induction budget with
  | zero => intro start _; rfl
  | succ n ih =>
    intro start h
    have h0 : trace start = false := by simpa using h 0 (by omega)
    simp only [waitLoop, h0, Bool.false_eq_true, if_neg, if_false]
    exact ih (start + 1) fun k hk => by
      rw [show start + 1 + k = start + (k + 1) by omega]
      exact h (k + 1) (by omega)

end DustDds

namespace DustDds

/-- Claim C3: the specification requires that a DATA submessage whose
(data_flag, key_flag) combination is neither (true, false) nor
(false, true) be logged and skipped with the reader cache unchanged.
The code instead reaches the todo!() arm and panics (modelled as the
result none rather than a normal return with the cache unchanged):
processing is not total on such submessages. -/
theorem receive_data_invalid_flags_panics :
    BestEffortStatelessReaderBehavior.receive_data []
      ⟨[1, 1, 1, 1, 1, 1, 1, 1, 1, 1, 1, 1]⟩ (mkDataSubmessage false false) = none ∧
    BestEffortStatelessReaderBehavior.receive_data []
      ⟨[1, 1, 1, 1, 1, 1, 1, 1, 1, 1, 1, 1]⟩ (mkDataSubmessage true true) = none := by
  constructor <;> rfl

/-- Claim C4: for a DATA submessage whose flags are (true, false) or
(false, true), receive_data appends exactly one cache change to the
reader cache, with kind ALIVE in the first case and NOT_ALIVE_DISPOSED
in the second, writer GUID built from the source guid prefix and the
submessage writer_id, sequence number writer_sn, payload the serialized
payload bytes, and inline QoS the submessage parameter list. -/
theorem receive_data_valid_flags_adds_one_change
    (reader_cache : List CacheChange) (sourceGuidPfx : GuidPrefix)
    (data : DataSubmessage)
    (h : (data.data_flag = true ∧ data.key_flag = false) ∨
         (data.data_flag = false ∧ data.key_flag = true)) :
    BestEffortStatelessReaderBehavior.receive_data reader_cache sourceGuidPfx data =
      some (reader_cache ++
        [{ kind := if data.data_flag then ChangeKind.Alive else ChangeKind.NotAliveDisposed
           writer_guid := ⟨sourceGuidPfx, data.writer_id.value⟩
           instance_handle := 0
           sequence_number := data.writer_sn.value
           data_value := data.serialized_payload.value
           inline_qos := data.inline_qos.parameter }]) := by
  rcases h with ⟨hd, hk⟩ | ⟨hd, hk⟩ <;>
    simp [BestEffortStatelessReaderBehavior.receive_data, hd, hk]

/-- Witness for claim C4 at a concrete ALIVE submessage. -/
theorem receive_data_valid_flags_adds_one_change_witness :
    BestEffortStatelessReaderBehavior.receive_data [] ⟨[2]⟩ (mkDataSubmessage true false) =
      some [{ kind := ChangeKind.Alive
              writer_guid := ⟨⟨[2]⟩, ⟨[0, 0, 0], 0⟩⟩
              instance_handle := 0
              sequence_number := 1
              data_value := [1, 2, 3, 4]
              inline_qos := [] }] := by
  have h := receive_data_valid_flags_adds_one_change [] ⟨[2]⟩
    (mkDataSubmessage true false) (Or.inl ⟨rfl, rfl⟩)
  simpa [mkDataSubmessage] using h

/-- Claim C1 counterexample: the claim states that a participant is
added if and only if the domain id of the sample equals the local
domain id. The sample sampleNoDomainId carries no domain id, so its
domain id does not equal the local one, yet the participant is added
(the code defaults a missing domain id to the local one). Moreover,
when the sender was discovered earlier and its current sample is
suppressed by ignored_participants (so nothing is added), its handle is
still reported by get_discovered_participants. -/
theorem process_discovered_participant_data_claim_counterexample :
    spdpHandle sampleNoDomainId ∈
      (initialParticipant.process_discovered_participant_data
        sampleNoDomainId).get_discovered_participants ∧
    sampleNoDomainId.participant_proxy.domain_id ≠ some initialParticipant.domain_id ∧
    ignoringParticipant.process_discovered_participant_data sampleNoDomainId =
      ignoringParticipant ∧
    spdpHandle sampleNoDomainId ∈
      (ignoringParticipant.process_discovered_participant_data
        sampleNoDomainId).get_discovered_participants := by
  decide

/-- Claim C1 (amended): process_discovered_participant_data adds the
remote participant under the handle built from the participant key if
and only if the domain id of the sample is absent or equal to the
local one, the domain tag matches, and the handle is not ignored;
otherwise the state is unchanged. Afterwards
get_discovered_participants contains that handle exactly when the
participant was added now or was already in the list. -/
theorem process_discovered_participant_data_spec
    (s : DomainParticipantActor) (d : SpdpDiscoveredParticipantData) :
    ((discoveryMatch s d →
        (s.process_discovered_participant_data d).discovered_participant_list =
          assocInsert s.discovered_participant_list (spdpHandle d) d) ∧
      (¬ discoveryMatch s d → s.process_discovered_participant_data d = s)) ∧
    (spdpHandle d ∈ (s.process_discovered_participant_data d).get_discovered_participants ↔
      discoveryMatch s d ∨ spdpHandle d ∈ s.get_discovered_participants) := by
  by_cases hc : discoveryMatch s d
  · refine ⟨⟨fun _ => ?_, fun hn => absurd hc hn⟩, ?_⟩
    · rw [process_eq_ite, if_pos hc]
    · rw [process_eq_ite, if_pos hc]
      simp only [DomainParticipantActor.get_discovered_participants]
      simp [mem_assocKeys_insert, hc]
  · refine ⟨⟨fun hcc => absurd hcc hc, fun _ => ?_⟩, ?_⟩
    · rw [process_eq_ite, if_neg hc]
    · rw [process_eq_ite, if_neg hc]
      simp [hc]

/-- Witness for claim C1 at a matching sample on a fresh participant. -/
theorem process_discovered_participant_data_spec_witness :
    discoveryMatch initialParticipant sampleMatching ∧
    (initialParticipant.process_discovered_participant_data
        sampleMatching).discovered_participant_list =
      assocInsert initialParticipant.discovered_participant_list
        (spdpHandle sampleMatching) sampleMatching ∧
    spdpHandle sampleMatching ∈
      (initialParticipant.process_discovered_participant_data
        sampleMatching).get_discovered_participants :=
  ⟨by decide,
    (process_discovered_participant_data_spec initialParticipant sampleMatching).1.1
      (by decide),
    ((process_discovered_participant_data_spec initialParticipant sampleMatching).2).mpr
      (Or.inl (by decide))⟩

/-- Claim C2: delete_user_defined_publisher fails with
PRECONDITION_NOT_MET when the handle names a publisher that still
contains a data writer, and when the handle does not name a publisher
of this participant; in both failure cases the state (hence the
publisher list) is unchanged. When the handle names a writer-free
publisher the call succeeds and removes exactly that publisher: the
handle is no longer bound and every other binding is untouched. -/
theorem delete_user_defined_publisher_spec
    (s : DomainParticipantActor) (handle : InstanceHandle) :
    (∀ p, assocGet s.user_defined_publisher_list handle = some p →
        p.data_writer_list ≠ [] →
        s.delete_user_defined_publisher handle =
          (Except.error (DdsError.PreconditionNotMet
            ("Publisher still contains data writers")), s)) ∧
    (assocGet s.user_defined_publisher_list handle = none →
        s.delete_user_defined_publisher handle =
          (Except.error (DdsError.PreconditionNotMet
            ("Publisher can only be deleted from its parent participant")), s)) ∧
    (∀ p, assocGet s.user_defined_publisher_list handle = some p →
        p.data_writer_list = [] →
        (s.delete_user_defined_publisher handle).1 = Except.ok () ∧
        assocGet (s.delete_user_defined_publisher handle).2.user_defined_publisher_list
          handle = none ∧
        (∀ k, k ≠ handle →
          assocGet (s.delete_user_defined_publisher handle).2.user_defined_publisher_list
            k = assocGet s.user_defined_publisher_list k) ∧
        (s.delete_user_defined_publisher handle).2 =
          { s with user_defined_publisher_list :=
              assocRemove s.user_defined_publisher_list handle }) := by
  refine ⟨?_, ?_, ?_⟩
  · intro p hget hne
    have hempty : p.data_writer_list.isEmpty = false := by
      cases hl : p.data_writer_list with
      | nil => exact absurd hl hne
      | cons a l => rfl
    simp [DomainParticipantActor.delete_user_defined_publisher, hget, hempty]
  · intro hget
    simp [DomainParticipantActor.delete_user_defined_publisher, hget]
  · intro p hget hnil
    have hempty : p.data_writer_list.isEmpty = true := by
      rw [hnil]
      rfl
    refine ⟨?_, ?_, ?_, ?_⟩
    · simp [DomainParticipantActor.delete_user_defined_publisher, hget, hempty]
    · simp [DomainParticipantActor.delete_user_defined_publisher, hget, hempty,
        assocGet_remove_self]
    · intro k hk
      simp [DomainParticipantActor.delete_user_defined_publisher, hget, hempty,
        assocGet_remove_ne _ _ _ hk]
    · simp [DomainParticipantActor.delete_user_defined_publisher, hget, hempty]

/-- Witness for claim C2: deleting the writer-free publisher of
onePublisherState succeeds and unbinds its handle. -/
theorem delete_user_defined_publisher_spec_witness :
    (onePublisherState.delete_user_defined_publisher ⟨[3]⟩).1 = Except.ok () ∧
    assocGet (onePublisherState.delete_user_defined_publisher
        ⟨[3]⟩).2.user_defined_publisher_list ⟨[3]⟩ = none := by
  have h := (delete_user_defined_publisher_spec onePublisherState ⟨[3]⟩).2.2
    ⟨[]⟩ (by decide) (by decide)
  exact ⟨h.1, h.2.1⟩

/-- Claim C6 counterexample: for an unknown instance handle the code
returns PRECONDITION_NOT_MET, not the BAD_PARAMETER error the claim
names, for both discovered participants and discovered topics. -/
theorem get_discovered_data_unknown_handle_counterexample :
    (initialParticipant.get_discovered_participant_data ⟨[1]⟩).1 =
      Except.error (DdsError.PreconditionNotMet
        ("Participant with this instance handle not discovered")) ∧
    (initialParticipant.get_discovered_participant_data ⟨[1]⟩).1 ≠
      Except.error DdsError.BadParameter ∧
    (initialParticipant.get_discovered_topic_data ⟨[1]⟩).1 =
      Except.error (DdsError.PreconditionNotMet
        ("Topic with this handle not discovered")) ∧
    (initialParticipant.get_discovered_topic_data ⟨[1]⟩).1 ≠
      Except.error DdsError.BadParameter := by
  refine ⟨rfl, ?_, rfl, ?_⟩
  · intro h
    rw [show (initialParticipant.get_discovered_participant_data ⟨[1]⟩).1 =
        Except.error (DdsError.PreconditionNotMet
          ("Participant with this instance handle not discovered")) from rfl] at h
    injection h with h2
    exact DdsError.noConfusion h2
  · intro h
    rw [show (initialParticipant.get_discovered_topic_data ⟨[1]⟩).1 =
        Except.error (DdsError.PreconditionNotMet
          ("Topic with this handle not discovered")) from rfl] at h
    injection h with h2
    exact DdsError.noConfusion h2

/-- Claim C6 (amended): for a handle that names no discovered
participant (respectively topic), get_discovered_participant_data
(respectively get_discovered_topic_data) fails with
PRECONDITION_NOT_MET and the participant state is unchanged. -/
theorem get_discovered_data_unknown_handle_spec (s : DomainParticipantActor)
    (hp ht : InstanceHandle)
    (h1 : hp ∉ assocKeys s.discovered_participant_list)
    (h2 : ht ∉ assocKeys s.discovered_topic_list) :
    s.get_discovered_participant_data hp =
      (Except.error (DdsError.PreconditionNotMet
        ("Participant with this instance handle not discovered")), s) ∧
    s.get_discovered_topic_data ht =
      (Except.error (DdsError.PreconditionNotMet
        ("Topic with this handle not discovered")), s) := by
  constructor
  · simp [DomainParticipantActor.get_discovered_participant_data,
      assocGet_eq_none_of_not_mem h1]
  · simp [DomainParticipantActor.get_discovered_topic_data,
      assocGet_eq_none_of_not_mem h2]

/-- Witness for claim C6 on a fresh participant. -/
theorem get_discovered_data_unknown_handle_spec_witness :
    initialParticipant.get_discovered_participant_data ⟨[1]⟩ =
      (Except.error (DdsError.PreconditionNotMet
        ("Participant with this instance handle not discovered")),
        initialParticipant) ∧
    initialParticipant.get_discovered_topic_data ⟨[1]⟩ =
      (Except.error (DdsError.PreconditionNotMet
        ("Topic with this handle not discovered")), initialParticipant) :=
  get_discovered_data_unknown_handle_spec initialParticipant ⟨[1]⟩ ⟨[1]⟩
    (by decide) (by decide)

/-- Claim C7 counterexample: the u8 publisher counter wraps modulo 256,
so after 256 creations the participant state has changed (a publisher
exists) yet the 257th publisher receives the same GUID, entity id and
instance handle as the first one; distinctness does not hold for any
number of creations. -/
theorem create_publisher_guid_reuse_counterexample :
    createMany 256 initialParticipant ≠ initialParticipant ∧
    guidOfNext (createMany 256 initialParticipant) = guidOfNext initialParticipant := by
  constructor
  · intro heq
    have hne : (createMany 256 initialParticipant).user_defined_publisher_list ≠ [] := by
      show ((createMany 255
        initialParticipant).create_user_defined_publisher).2.user_defined_publisher_list ≠ []
      simp [DomainParticipantActor.create_user_defined_publisher,
        DomainParticipantActor.create_unique_publisher_id, assocInsert]
    exact hne (by rw [heq]; rfl)
  · have h1 : (createMany 256 initialParticipant).user_defined_publisher_counter = 0 := by
      rw [createMany_counter initialParticipant (by decide) 256]
      rfl
    have h2 : (createMany 256 initialParticipant).guidPfx = initialParticipant.guidPfx :=
      createMany_guidPfx initialParticipant 256
    rw [guidOfNext_eq, guidOfNext_eq, h1, h2]
    rfl

/-- Claim C7 (amended): for a participant whose u8 publisher counter is
in range, any two of the first 256 publisher creations receive
distinct GUIDs (hence distinct entity ids and instance handles); the
counter wraps modulo 256 so the guarantee stops at 256 creations. -/
theorem create_publisher_unique_ids_spec (s : DomainParticipantActor) (i j : Nat)
    (hs : s.user_defined_publisher_counter < 256)
    (hi : i < 256) (hj : j < 256) (hij : i ≠ j) :
    guidOfNext (createMany i s) ≠ guidOfNext (createMany j s) := by
  rw [guidOfNext_eq, guidOfNext_eq, createMany_guidPfx, createMany_guidPfx,
    createMany_counter s hs i, createMany_counter s hs j]
  intro h
  simp only [Guid.mk.injEq, EntityId.mk.injEq, List.cons.injEq, and_true, true_and] at h
  omega

/-- Witness for claim C7: the first two publishers get distinct GUIDs. -/
theorem create_publisher_unique_ids_spec_witness :
    initialParticipant.user_defined_publisher_counter < 256 ∧
    guidOfNext (createMany 0 initialParticipant) ≠
      guidOfNext (createMany 1 initialParticipant) :=
  ⟨by decide,
    create_publisher_unique_ids_spec initialParticipant 0 1 (by decide) (by decide)
      (by decide) (by decide)⟩

/-- Claim C5: the specification requires encode-then-decode of every
valid RTPS message to be defined, in particular for INFO_TS. The
serialize and deserialize mappings for the INFO_TS submessage are both
todo!() and panic on every input (modelled as none), so no message
containing an INFO_TS submessage can be encoded or decoded, let alone
round-tripped. -/
theorem info_timestamp_mapping_undefined :
    InfoTimestampSubmessage.mapping_write ⟨true, false, ⟨0, 0⟩⟩ = none ∧
    ∀ buf : List Nat, InfoTimestampSubmessage.mapping_read buf = none :=
  ⟨rfl, fun _ => rfl⟩

/-- Claim C8: wait_for_historical_data returns OK if the reader
reports historical data received at some poll before max_wait allows
no further polls, and fails with TIMEOUT when the deadline elapses
first. The loop only issues read-only is_historical_data_received
requests, so the reader state the trace describes is not modified and
the condition remains observable by later calls. -/
theorem wait_for_historical_data_spec (trace : Nat → Bool) (budget : Nat) :
    ((∃ i, i < budget ∧ trace i = true) →
      DataReaderAsync.wait_for_historical_data trace budget = Except.ok ()) ∧
    ((∀ i, i < budget → trace i = false) →
      DataReaderAsync.wait_for_historical_data trace budget =
        Except.error DdsError.Timeout) := by
  constructor
  · intro h
    obtain ⟨i, hi, hti⟩ := h
    exact waitLoop_ok trace budget 0 ⟨i, hi, by simpa using hti⟩
  · intro h
    exact waitLoop_timeout trace budget 0 fun k hk => by simpa using h k hk

/-- Witness for claim C8: a reader reporting data at the third poll
within a five-poll deadline succeeds; a reader never reporting data
within a three-poll deadline times out. -/
theorem wait_for_historical_data_spec_witness :
    DataReaderAsync.wait_for_historical_data (fun i => decide (i = 2)) 5 =
      Except.ok () ∧
    DataReaderAsync.wait_for_historical_data (fun _ => false) 3 =
      Except.error DdsError.Timeout :=
  ⟨(wait_for_historical_data_spec (fun i => decide (i = 2)) 5).1
      ⟨2, by decide, by decide⟩,
    (wait_for_historical_data_spec (fun _ => false) 3).2 fun _ _ => rfl⟩

end DustDds

namespace DustDds

/-! ## SequenceNumber arithmetic lemmas -/

theorem i32trunc_eq_self {x : Int} (h1 : -2 ^ 31 ≤ x) (h2 : x < 2 ^ 31) :
    i32trunc x = x := by
  unfold i32trunc
  have e31 : (2 : Int) ^ 31 = 2147483648 := by norm_num
  have e32 : (2 : Int) ^ 32 = 4294967296 := by norm_num
  rw [e31, e32]
  rw [e31] at h1 h2
  omega

theorem toI64_fromI64 {v : Int} (h1 : -2 ^ 63 ≤ v) (h2 : v < 2 ^ 63) :
    (SequenceNumber.fromI64 v).toI64 = v := by
  simp only [SequenceNumber.fromI64, SequenceNumber.toI64, u32trunc, i32trunc]
  rw [Int.fdiv_eq_ediv _ (by positivity)]
  have e31 : (2 : Int) ^ 31 = 2147483648 := by norm_num
  have e32 : (2 : Int) ^ 32 = 4294967296 := by norm_num
  have e63 : (2 : Int) ^ 63 = 9223372036854775808 := by norm_num
  rw [e31, e32]
  rw [e63] at h1 h2
  omega

theorem fromI64_isRepr (v : Int) : (SequenceNumber.fromI64 v).isRepr := by
  simp only [SequenceNumber.fromI64, SequenceNumber.isRepr, u32trunc, i32trunc]
  have e31 : (2 : Int) ^ 31 = 2147483648 := by norm_num
  have e32 : (2 : Int) ^ 32 = 4294967296 := by norm_num
  have e32n : (2 : Nat) ^ 32 = 4294967296 := by norm_num
  rw [e31, e32, e32n]
  refine ⟨by omega, by omega, by omega⟩

theorem fromI64_toI64 {y : SequenceNumber} (h : y.isRepr) :
    SequenceNumber.fromI64 y.toI64 = y := by
  obtain ⟨high, low⟩ := y
  obtain ⟨h1, h2, h3⟩ := h
  simp only [SequenceNumber.isRepr] at h1 h2 h3
  simp only [SequenceNumber.fromI64, SequenceNumber.toI64, u32trunc, i32trunc]
  rw [Int.fdiv_eq_ediv _ (by positivity)]
  have e31 : (2 : Int) ^ 31 = 2147483648 := by norm_num
  have e32 : (2 : Int) ^ 32 = 4294967296 := by norm_num
  have e32n : (2 : Nat) ^ 32 = 4294967296 := by norm_num
  rw [e31, e32]
  rw [e31] at h1 h2
  rw [e32n] at h3
  rw [SequenceNumber.mk.injEq]
  constructor
  · omega
  · omega

theorem toI64_bounds {y : SequenceNumber} (h : y.isRepr) :
    -2 ^ 63 ≤ y.toI64 ∧ y.toI64 < 2 ^ 63 := by
  obtain ⟨h1, h2, h3⟩ := h
  simp only [SequenceNumber.toI64]
  have e31 : (2 : Int) ^ 31 = 2147483648 := by norm_num
  have e32 : (2 : Int) ^ 32 = 4294967296 := by norm_num
  have e32n : (2 : Nat) ^ 32 = 4294967296 := by norm_num
  have e63 : (2 : Int) ^ 63 = 9223372036854775808 := by norm_num
  rw [e32, e63]
  rw [e31] at h1 h2
  rw [e32n] at h3
  omega

end DustDds

namespace DustDds

/-- Claim C9: the wire representation of SequenceNumber behaves as a
signed 64-bit counter. For every i64 value v, From<i64> and then
Into<i64> yields v back (and the produced (high, low) pair satisfies
the i32/u32 representation invariant), and the Ord comparison of any
two SequenceNumbers agrees with the order of their i64 values. -/
theorem sequence_number_i64_roundtrip_and_ord (v : Int) (a b : SequenceNumber)
    (h1 : -2 ^ 63 ≤ v) (h2 : v < 2 ^ 63) :
    (SequenceNumber.fromI64 v).toI64 = v ∧
    (SequenceNumber.fromI64 v).isRepr ∧
    (SequenceNumber.cmp a b = Ordering.lt ↔ a.toI64 < b.toI64) ∧
    (SequenceNumber.cmp a b = Ordering.eq ↔ a.toI64 = b.toI64) ∧
    (SequenceNumber.cmp a b = Ordering.gt ↔ b.toI64 < a.toI64) := by
  refine ⟨toI64_fromI64 h1 h2, fromI64_isRepr v, ?_, ?_, ?_⟩
  · exact compare_lt_iff_lt
  · exact compare_eq_iff_eq
  · exact compare_gt_iff_gt

/-- Witness for claim C9 at v = -(2^35) - 7 and two concrete numbers. -/
theorem sequence_number_i64_roundtrip_and_ord_witness :
    (SequenceNumber.fromI64 (-(2 ^ 35) - 7)).toI64 = -(2 ^ 35) - 7 ∧
    SequenceNumber.cmp ⟨0, 1⟩ ⟨0, 2⟩ = Ordering.lt := by
  have h := sequence_number_i64_roundtrip_and_ord (-(2 ^ 35) - 7) ⟨0, 1⟩ ⟨0, 2⟩
    (by norm_num) (by norm_num)
  exact ⟨h.1, h.2.2.1.mpr (by norm_num [SequenceNumber.toI64])⟩

end DustDds

namespace DustDds

/-! ## SequenceNumberSet bitmap lemmas -/

theorem bitTest_eq_testBit (a bp : Nat) :
    (a &&& (1 <<< bp) == 1 <<< bp) = a.testBit bp := by
  rw [Nat.shiftLeft_eq, one_mul, Nat.and_two_pow]
  cases h : a.testBit bp
  · simp only [Bool.toNat_false, Nat.zero_mul]
    exact beq_eq_false_iff_ne.mpr (Nat.two_pow_pos bp).ne
  · simp

theorem sub_div_mul_eq_mod (i : Nat) : i - i / 32 * 32 = i % 32 := by omega

set_option maxRecDepth 4096 in
theorem bmTest_init : ∀ i < 256, bmTest [1, 0, 0, 0, 0, 0, 0, 0] i = decide (i = 0) := by
  decide

theorem bmTest_setBitmapBit (bitmap : List Nat) (hlen : bitmap.length = 8)
    (off i : Nat) (hoff : off ≤ 255) (hi : i ≤ 255) :
    bmTest (setBitmapBit bitmap off) i = (bmTest bitmap i || decide (i = off)) := by
  simp only [bmTest, setBitmapBit]
  by_cases hidx : i / 32 = off / 32
  · rw [hidx]
    have hlt : off / 32 < bitmap.length := by omega
    rw [List.getD_eq_getElem?_getD, List.getElem?_set_self hlt, Option.getD_some,
      sub_div_mul_eq_mod off, Nat.shiftLeft_eq, one_mul, Nat.testBit_lor,
      Nat.testBit_two_pow]
    congr 1
    exact decide_eq_decide.mpr (by omega)
  · have hne : off / 32 ≠ i / 32 := fun hh => hidx hh.symm
    rw [List.getD_eq_getElem?_getD, List.getElem?_set_ne hne,
      ← List.getD_eq_getElem?_getD]
    have hdec : decide (i = off) = false := by
      simp only [decide_eq_false_iff_not]
      exact fun hh => hidx (by rw [hh])
    rw [hdec, Bool.or_false]

end DustDds

namespace DustDds

/-! ## FromIterator and iterator lemmas for SequenceNumberSet -/

theorem fromIterAux_none (base : SequenceNumber) (xs : List SequenceNumber) :
    ∀ bitmap, (∃ y ∈ xs, ¬(0 ≤ y.toI64 - base.toI64 ∧ y.toI64 - base.toI64 ≤ 255)) →
      fromIterAux base xs bitmap = none := by
  induction xs with
  | nil =>
    rintro bitmap ⟨y, hy, _⟩
    cases hy
  | cons a rest ih =>
    rintro bitmap ⟨y, hy, hbady⟩
    by_cases ha : 0 ≤ a.toI64 - base.toI64 ∧ a.toI64 - base.toI64 ≤ 255
    · simp only [fromIterAux]
      rw [if_pos ha]
      apply ih
      rcases List.mem_cons.mp hy with rfl | hy2
      · exact absurd ha hbady
      · exact ⟨y, hy2, hbady⟩
    · simp only [fromIterAux]
      rw [if_neg ha]

theorem fromIterAux_some (base : SequenceNumber) (xs : List SequenceNumber) :
    ∀ bitmap, bitmap.length = 8 →
      (∀ y ∈ xs, 0 ≤ y.toI64 - base.toI64 ∧ y.toI64 - base.toI64 ≤ 255) →
      ∃ bm, fromIterAux base xs bitmap = some bm ∧ bm.length = 8 ∧
        ∀ i, i ≤ 255 → bmTest bm i =
          (bmTest bitmap i || xs.any fun y => decide (y.toI64 - base.toI64 = (i : Int))) := by
  induction xs with
  | nil =>
    intro bitmap hlen _
    exact ⟨bitmap, rfl, hlen, fun i _ => by simp⟩
  | cons a rest ih =>
    intro bitmap hlen hall
    have ha := hall a (List.mem_cons_self a rest)
    have hoffle : (a.toI64 - base.toI64).toNat ≤ 255 := by omega
    obtain ⟨bm, hbm, hlen2, hbits⟩ :=
      ih (setBitmapBit bitmap (a.toI64 - base.toI64).toNat)
        (by simp [setBitmapBit, hlen])
        (fun y hy => hall y (List.mem_cons_of_mem a hy))
    refine ⟨bm, ?_, hlen2, ?_⟩
    · simp only [fromIterAux]
      rw [if_pos ha]
      exact hbm
    · intro i hi
      rw [hbits i hi, bmTest_setBitmapBit bitmap hlen _ i hoffle hi]
      have hdec : decide (i = (a.toI64 - base.toI64).toNat) =
          decide (a.toI64 - base.toI64 = (i : Int)) :=
        decide_eq_decide.mpr (by omega)
      rw [hdec, List.any_cons, Bool.or_assoc]

theorem toList_eq_filterMap (s : SequenceNumberSet) :
    s.toList = (List.range 256).filterMap fun i =>
      if bmTest s.bitmap i then
        some (SequenceNumber.fromI64 (s.base.toI64 + (i : Int)))
      else none := by
  unfold SequenceNumberSet.toList
  apply List.filterMap_congr
  intro i _
  dsimp only
  rw [bitTest_eq_testBit, sub_div_mul_eq_mod]
  have hv : s.base.toI64 + ((i / 32 : Nat) : Int) * 32 + ((i % 32 : Nat) : Int) =
      s.base.toI64 + (i : Int) := by omega
  rw [hv]
  rfl

theorem mem_toList_iff (s : SequenceNumberSet) (z : SequenceNumber) :
    z ∈ s.toList ↔ ∃ i, i < 256 ∧ bmTest s.bitmap i = true ∧
      z = SequenceNumber.fromI64 (s.base.toI64 + (i : Int)) := by
  rw [toList_eq_filterMap]
  simp only [List.mem_filterMap, List.mem_range]
  constructor
  · rintro ⟨i, hi, hf⟩
    by_cases hb : bmTest s.bitmap i
    · rw [if_pos hb] at hf
      exact ⟨i, hi, hb, (Option.some.inj hf).symm⟩
    · rw [if_neg hb] at hf
      cases hf
  · rintro ⟨i, hi, hb, rfl⟩
    exact ⟨i, hi, by rw [if_pos hb]⟩

theorem toList_pairwise (s : SequenceNumberSet)
    (hrange : ∀ i, i < 256 → bmTest s.bitmap i = true →
      -2 ^ 63 ≤ s.base.toI64 + (i : Int) ∧ s.base.toI64 + (i : Int) < 2 ^ 63) :
    List.Pairwise (fun a b => a.toI64 < b.toI64) s.toList := by
  rw [toList_eq_filterMap]
  refine List.pairwise_filterMap.mpr ?_
  have hlt : List.Pairwise (fun i j => i < j) (List.range 256) :=
    List.sorted_lt_range 256
  refine hlt.imp_of_mem ?_
  intro i j hi hj hij b hb b' hb'
  rw [List.mem_range] at hi hj
  by_cases hbi : bmTest s.bitmap i
  · by_cases hbj : bmTest s.bitmap j
    · rw [if_pos hbi, Option.mem_def] at hb
      rw [if_pos hbj, Option.mem_def] at hb'
      obtain rfl := Option.some.inj hb
      obtain rfl := Option.some.inj hb'
      obtain ⟨hl1, hl2⟩ := hrange i hi hbi
      obtain ⟨hr1, hr2⟩ := hrange j hj hbj
      rw [toI64_fromI64 hl1 hl2, toI64_fromI64 hr1 hr2]
      omega
    · rw [if_neg hbj] at hb'
      cases hb'
  · rw [if_neg hbi] at hb
    cases hb

end DustDds

namespace DustDds

/-- Claim C10: FromIterator for SequenceNumberSet is defined exactly
for inputs whose first element is the minimum and whose every element
lies within 255 of it (any other input panics on the 8-word bitmap,
modelled as none). Under that precondition the set is built, iterating
it yields a strictly increasing list whose members are exactly the
input elements, and the base (first) element is always included. -/
theorem from_iter_spec (x : SequenceNumber) (xs : List SequenceNumber)
    (hx : x.isRepr) (hxs : ∀ y ∈ xs, y.isRepr) :
    ((∀ y ∈ xs, x.toI64 ≤ y.toI64 ∧ y.toI64 ≤ x.toI64 + 255) →
      ∃ s, SequenceNumberSet.from_iter (x :: xs) = some s ∧
        List.Pairwise (fun a b => a.toI64 < b.toI64) s.toList ∧
        (∀ z, z ∈ s.toList ↔ z ∈ x :: xs) ∧
        x ∈ s.toList) ∧
    ((∃ y ∈ xs, y.toI64 < x.toI64 ∨ x.toI64 + 255 < y.toI64) →
      SequenceNumberSet.from_iter (x :: xs) = none) := by
  constructor
  · intro hpre
    have hall : ∀ y ∈ xs, 0 ≤ y.toI64 - x.toI64 ∧ y.toI64 - x.toI64 ≤ 255 := by
      intro y hy
      obtain ⟨h1, h2⟩ := hpre y hy
      omega
    obtain ⟨bm, hbm, hlen, hbits⟩ :=
      fromIterAux_some x xs [1, 0, 0, 0, 0, 0, 0, 0] (by rfl) hall
    have hchar : ∀ i, i < 256 →
        (bmTest bm i = true ↔ i = 0 ∨ ∃ y ∈ xs, y.toI64 - x.toI64 = (i : Int)) := by
      intro i hi
      rw [hbits i (by omega), bmTest_init i hi]
      simp [List.any_eq_true]
    refine ⟨⟨x, bm⟩, ?_, ?_, ?_, ?_⟩
    · simp only [SequenceNumberSet.from_iter]
      rw [hbm]
      rfl
    · apply toList_pairwise
      intro i hi hbit
      dsimp only at hbit ⊢
      have e63 : (2 : Int) ^ 63 = 9223372036854775808 := by norm_num
      rcases (hchar i hi).mp hbit with rfl | ⟨y, hy, hoy⟩
      · have hb := toI64_bounds hx
        rw [e63] at hb ⊢
        omega
      · have hb := toI64_bounds (hxs y hy)
        rw [e63] at hb ⊢
        omega
    · intro z
      rw [mem_toList_iff]
      dsimp only
      constructor
      · rintro ⟨i, hi, hbit, rfl⟩
        rcases (hchar i hi).mp hbit with rfl | ⟨y, hy, hoy⟩
        · rw [show x.toI64 + ((0 : Nat) : Int) = x.toI64 by simp, fromI64_toI64 hx]
          exact List.mem_cons_self x xs
        · rw [show x.toI64 + (i : Int) = y.toI64 by omega, fromI64_toI64 (hxs y hy)]
          exact List.mem_cons_of_mem x hy
      · intro hz
        rcases List.mem_cons.mp hz with rfl | hy
        · refine ⟨0, by omega, (hchar 0 (by omega)).mpr (Or.inl rfl), ?_⟩
          rw [show z.toI64 + ((0 : Nat) : Int) = z.toI64 by simp, fromI64_toI64 hx]
        · obtain ⟨ho1, ho2⟩ := hall z hy
          refine ⟨(z.toI64 - x.toI64).toNat, by omega, ?_, ?_⟩
          · exact (hchar _ (by omega)).mpr (Or.inr ⟨z, hy, by omega⟩)
          · rw [show x.toI64 + (((z.toI64 - x.toI64).toNat : Nat) : Int) = z.toI64 by omega,
              fromI64_toI64 (hxs z hy)]
    · rw [mem_toList_iff]
      dsimp only
      refine ⟨0, by omega, (hchar 0 (by omega)).mpr (Or.inl rfl), ?_⟩
      rw [show x.toI64 + ((0 : Nat) : Int) = x.toI64 by simp, fromI64_toI64 hx]
  · rintro ⟨y, hy, hbad⟩
    simp only [SequenceNumberSet.from_iter]
    rw [fromIterAux_none x xs _
      ⟨y, hy, fun hc => by rcases hbad with hb | hb <;> omega⟩]
    rfl

/-- Witness for claim C10 on the input [5, 7] (as i64 values): the set
is built, its iteration is strictly increasing, its members are
exactly 5 and 7, and the base 5 is included. -/
theorem from_iter_spec_witness :
    SequenceNumber.isRepr ⟨0, 5⟩ ∧ (∀ y ∈ [(⟨0, 7⟩ : SequenceNumber)], y.isRepr) ∧
    (∃ s, SequenceNumberSet.from_iter [⟨0, 5⟩, ⟨0, 7⟩] = some s ∧
      List.Pairwise (fun a b => a.toI64 < b.toI64) s.toList ∧
      (∀ z, z ∈ s.toList ↔ z ∈ [(⟨0, 5⟩ : SequenceNumber), ⟨0, 7⟩]) ∧
      (⟨0, 5⟩ : SequenceNumber) ∈ s.toList) :=
  ⟨by decide, by decide,
    (from_iter_spec ⟨0, 5⟩ [⟨0, 7⟩] (by decide) (by decide)).1 (by decide)⟩

end DustDds
